import Mathlib

/-!
Shallow embedding of the `dates-str` crate (src/lib.rs, src/impls.rs,
src/errors.rs).

Strings are modelled as `List Char`; Rust's `u8`/`u64` values are modelled
as `Nat`, with the truncating `as u8` cast made explicit (`% 256` on the
`Int` value) where the source performs one.  Signed intermediates (`i8`,
`i16` in the source) are modelled as `Int`; the claims only quantify over
in-range component values, for which these casts are exact.  `while` loops
are modelled as fuel-indexed structural recursions; at every call site the
fuel is chosen large enough that the recursion runs to the loop's exit
condition (each loop strictly increases/decreases its counter, so an
initial-value-sized fuel suffices), keeping every definition kernel-
evaluable.  Functions that can `panic!`/`unwrap`/index out of bounds
return `Option` (`none` = abort); functions returning `Result` return
`Except`.
-/

namespace DatesStr

/-- `errors.rs`: the `DateErrors` enum. -/
inductive DateErrors where
  | InvalidDay (day : Nat)
  | InvalidMonth (month : Nat)
  | FormatDateError
  | InvalidYear (year : Nat)
  | InvalidParsing (s : List Char)
deriving DecidableEq

/-- `lib.rs`: the `DateStr` struct.  The `Year`, `Month` and `Day` newtypes
each wrap a single unsigned integer (`u64`, `u8`, `u8`) and have derived
structural equality, so they are collapsed to the wrapped `Nat` here. -/
structure DateStr where
  year : Nat
  month : Nat
  day : Nat
deriving DecidableEq

/-- `lib.rs`: the `DateFormat` struct. -/
structure DateFormat where
  formatter : List Char
deriving DecidableEq

deriving instance DecidableEq for Except

/-- `lib.rs`: `const FORMATTER_OPTIONS: [&str; 3] = ["YYYY", "MM", "DD"]`. -/
def FORMATTER_OPTIONS : List (List Char) :=
  [['Y', 'Y', 'Y', 'Y'], ['M', 'M'], ['D', 'D']]

/-- `lib.rs`: `const MAX_DAY_FEBR: u8 = 29`. -/
def MAX_DAY_FEBR : Nat := 29

/-- `u64::MAX`, the overflow bound of Rust's `str::parse::<u64>`. -/
def U64MAX : Nat := 18446744073709551615

/-- `u8::MAX`, the overflow bound of Rust's `str::parse::<u8>`. -/
def U8MAX : Nat := 255

/-- `lib.rs` `Day::new`: `Err(InvalidDay)` outside `1..=31`. -/
def Day.new (value : Nat) : Except DateErrors Nat :=
  if ¬(1 ≤ value ∧ value ≤ 31) then .error (.InvalidDay value) else .ok value

/-- `lib.rs` `Month::new`: `Err(InvalidMonth)` outside `1..=12`. -/
def Month.new (value : Nat) : Except DateErrors Nat :=
  if ¬(1 ≤ value ∧ value ≤ 12) then .error (.InvalidMonth value) else .ok value

/-- Fuel-indexed form of the carry loop
`while sum > m { carry += 1; sum -= m }` shared by `Day::add`
(`m = 30`), `Month::add` (`m = 12`) and the loops of `impls.rs`'s
`DateStr` addition (`m = 31` for days, `m = 12` for months).
Returns the final `sum` together with the accumulated carry. -/
def carryLoopAux (m : Nat) : Nat → Nat → Nat × Nat
  | 0, sum => (sum, 0)
  | fuel + 1, sum =>
    if sum > m then
      let p := carryLoopAux m fuel (sum - m)
      (p.1, p.2 + 1)
    else (sum, 0)

/-- The carry loop with enough fuel to reach the exit condition
(each iteration removes `m ≥ 1` from `sum`, so `sum` steps suffice). -/
def carryLoop (m sum : Nat) : Nat × Nat := carryLoopAux m sum sum

/-- `lib.rs` `impl Add for Day`: sum the two values, then
`while sum > 30 { mo += 1; sum -= 30 }`; returns `(Day(sum), Month(mo))`
with the carry built by `Month::new_unchecked`. -/
def Day.add (a b : Nat) : Nat × Nat := carryLoop 30 (a + b)

/-- Fuel-indexed form of `lib.rs` `Day::sub`'s loop
`while sub * -1 > 30 { mos += 1; sub += 30 }`. -/
def daySubLoopAux : Nat → Int → Nat → Int × Nat
  | 0, sub, mos => (sub, mos)
  | fuel + 1, sub, mos =>
    if sub * (-1) > 30 then daySubLoopAux fuel (sub + 30) (mos + 1)
    else (sub, mos)

/-- `lib.rs` `impl Sub for Day`: `sub = self as i16 - rhs as i16`;
if `sub > 0` return `(Day(sub as u8), Month::new_unchecked(0))`;
otherwise run the loop and return `(Day(sub as u8), Month::new_unchecked(mos))`.
The `as u8` cast truncates: on the `Int` value it is `(· % 256)`
(two's-complement wraparound for the negative values the loop can leave). -/
def Day.sub (a b : Nat) : Nat × Nat :=
  let sub : Int := (a : Int) - (b : Int)
  if sub > 0 then (((sub % 256).toNat : Nat), 0)
  else
    let p := daySubLoopAux ((-sub).toNat + 1) sub 0
    (((p.1 % 256).toNat : Nat), p.2)

/-- `lib.rs` `impl Add for Month`: sum, then
`while sum > 12 { y2a += 1; sum -= 12 }`; returns `(Month(sum), Year(y2a))`. -/
def Month.add (a b : Nat) : Nat × Nat := carryLoop 12 (a + b)

/-- `lib.rs` `DateStr::new`: rejects with `InvalidDay` exactly when
`month.0 != 2 && day.0 > 29`, otherwise accepts. -/
def DateStr.new (year month day : Nat) : Except DateErrors DateStr :=
  if month ≠ 2 ∧ day > 29 then .error (.InvalidDay day)
  else .ok ⟨year, month, day⟩

/-- Rust `str::split(sep)` on a character separator, over `List Char`:
the empty string yields one empty field, a separator at either end or
doubled yields empty fields. -/
def splitOnChar (sep : Char) : List Char → List (List Char)
  | [] => [[]]
  | c :: cs =>
    if c = sep then [] :: splitOnChar sep cs
    else
      match splitOnChar sep cs with
      | [] => [[c]]
      | p :: ps => (c :: p) :: ps

/-- The numeric value of an ASCII digit, `none` for any other character. -/
def digitVal? (c : Char) : Option Nat :=
  if '0' ≤ c ∧ c ≤ '9' then some (c.toNat - '0'.toNat) else none

/-- Accumulate the decimal value of a digit string; `none` as soon as a
non-digit is met. -/
def parseDigitsAux : Nat → List Char → Option Nat
  | acc, [] => some acc
  | acc, c :: cs =>
    match digitVal? c with
    | some d => parseDigitsAux (acc * 10 + d) cs
    | none => none

/-- Drop one leading `'+'` sign if present. -/
def stripPlus : List Char → List Char
  | [] => []
  | c :: cs => if c = '+' then cs else c :: cs

/-- Modelled from the Rust standard library: `str::parse::<uN>()` accepts
an optional leading `'+'` followed by one or more ASCII digits and fails
on the empty string, on any other character (including `'-'`), and on
overflow past `maxVal` (`u8::MAX` / `u64::MAX` at the call sites).
Because the accumulated value only grows, checking the final value
against `maxVal` is equivalent to the source's per-step overflow check. -/
def parseUInt (maxVal : Nat) (s : List Char) : Option Nat :=
  let body := stripPlus s
  if body = [] then none
  else
    match parseDigitsAux 0 body with
    | some v => if v ≤ maxVal then some v else none
    | none => none

/-- `lib.rs` `DateStr::check_date_constraints`: `(month_ok, day_ok)`. -/
def check_date_constraints (month day : Nat) : Bool × Bool :=
  if ¬(1 ≤ month ∧ month ≤ 12) then (false, false)
  else if month = 2 then
    if ¬(1 ≤ day ∧ day ≤ MAX_DAY_FEBR) then (true, false) else (true, true)
  else if month ∈ [1, 3, 5, 7, 8, 10, 12] then
    if ¬(1 ≤ day ∧ day ≤ 31) then (true, false) else (true, true)
  else if month ∈ [4, 6, 9, 11] then
    if ¬(1 ≤ day ∧ day < 31) then (true, false) else (true, true)
  else (false, false)

/-- `lib.rs` `DateStr::from_iso_str` (the panicking parser); `none` models
a panic (failed `unwrap`, explicit `panic!`, or out-of-bounds index).
Splits on `'-'`; numeric text that fails to parse defaults to `0`
(`unwrap_or_default`); `Month::new(..).unwrap()` and the redundant
re-check panic outside `1..=12`; `Day::new(..).unwrap()` panics outside
`1..=31`; finally `check_date_constraints` panics when either flag is
false. -/
def DateStr.from_iso_str (s : List Char) : Option DateStr :=
  let sep_date := splitOnChar '-' s
  match sep_date.get? 0 with
  | none => none
  | some year_s =>
    let year := (parseUInt U64MAX year_s).getD 0
    match sep_date.get? 1 with
    | none => none
    | some month_s =>
      let month := (parseUInt U8MAX month_s).getD 0
      if ¬(1 ≤ month ∧ month ≤ 12) then none
      else if ¬(1 ≤ month ∧ month ≤ 12) then none
      else
        match sep_date.get? 2 with
        | none => none
        | some day_s =>
          let day := (parseUInt U8MAX day_s).getD 0
          if ¬(1 ≤ day ∧ day ≤ 31) then none
          else
            let mo_day_ok := check_date_constraints month day
            if ¬mo_day_ok.1 then none
            else if ¬mo_day_ok.2 then none
            else some ⟨year, month, day⟩

/-- `lib.rs` `DateStr::try_from_iso_str` (the checked parser); the outer
`none` models the panic of an out-of-bounds `sep_date[i]` index, which
this function does not catch.  Unparsable numeric text defaults to `0`
(`unwrap_or_default`); month outside `1..=12` returns `InvalidMonth`,
day outside `1..=31` returns `InvalidDay`; no per-month ceiling check. -/
def DateStr.try_from_iso_str (s : List Char) : Option (Except DateErrors DateStr) :=
  let sep_date := splitOnChar '-' s
  match sep_date.get? 0 with
  | none => none
  | some year_s =>
    let year := (parseUInt U64MAX year_s).getD 0
    match sep_date.get? 1 with
    | none => none
    | some month_s =>
      let month := (parseUInt U8MAX month_s).getD 0
      if ¬(1 ≤ month ∧ month ≤ 12) then some (.error (.InvalidMonth month))
      else
        match sep_date.get? 2 with
        | none => none
        | some day_s =>
          let day := (parseUInt U8MAX day_s).getD 0
          if ¬(1 ≤ day ∧ day ≤ 31) then some (.error (.InvalidDay day))
          else some (.ok ⟨year, month, day⟩)

/-- Decimal digits of `n`, most significant first, by fuel-indexed
recursion (`fuel ≥ n` suffices since `n / 10 < n` for `n ≥ 1`). -/
def natCharsAux : Nat → Nat → List Char
  | 0, _ => []
  | fuel + 1, n =>
    if n = 0 then []
    else natCharsAux fuel (n / 10) ++ [Nat.digitChar (n % 10)]

/-- Rust's `Display` for an unsigned integer: its decimal digits,
`"0"` for zero. -/
def natChars (n : Nat) : List Char :=
  if n = 0 then ['0'] else natCharsAux n n

/-- `lib.rs` `impl Display for DateStr`:
`write!(f, "{}-{:02}-{:02}", year, month, day)`.  The `Year`/`Month`/`Day`
arguments are rendered by their own `Display` impls, each of which
delegates with `write!(f, "{}", &self.0)` — a nested `write!` with a
fresh default format spec, which discards the outer `{:02}` width and
zero-pad flags.  The program's rendering is therefore unpadded in every
component (e.g. `(2022, 1, 4)` prints as `2022-1-4`). -/
def DateStr.toISOString (d : DateStr) : List Char :=
  natChars d.year ++ '-' :: (natChars d.month ++ '-' :: natChars d.day)

/-- ASCII uppercasing of one string, modelling Rust `str::to_uppercase`
(the recognized tokens and all claim inputs are ASCII). -/
def upperStr (s : List Char) : List Char := s.map Char.toUpper

/-- The `for fmt_opt in FORMATTER_OPTIONS` loop of
`DateFormat::from_string`: return `FormatDateError` at the first
recognized token with no case-insensitive match among the split pieces. -/
def checkTokens (pieces : List (List Char)) : List (List Char) → Except DateErrors Unit
  | [] => .ok ()
  | opt :: rest =>
    if pieces.any (fun e => upperStr e = opt) then checkTokens pieces rest
    else .error .FormatDateError

/-- `lib.rs` `DateFormat::from_string`: default separator `'-'`; every
token of `FORMATTER_OPTIONS` must appear (case-insensitively) among the
pieces of the template split on the separator; on success stores the
uppercased template. -/
def DateFormat.from_string (format : List Char) (separator : Option Char) :
    Except DateErrors DateFormat :=
  let sep := separator.getD '-'
  match checkTokens (splitOnChar sep format) FORMATTER_OPTIONS with
  | .error e => .error e
  | .ok _ => .ok ⟨upperStr format⟩

/-- `impls.rs` `impl Add for DateStr`: days reduced by
`while day > 31 { day -= 31; add_mo += 1 }`, then both months plus the
day carry reduced by `while months > 12 { add_year += 1; months -= 12 }`,
then plain year addition; the result is assembled directly from the raw
components with no re-validation. -/
def DateStr.add (a b : DateStr) : DateStr :=
  let p := carryLoop 31 (a.day + b.day)
  let q := carryLoop 12 (a.month + b.month + p.2)
  { year := a.year + b.year + q.2, month := q.1, day := p.1 }

/-- Fuel-indexed form of the day loop of `impls.rs` `DateStr::sub`:
`while day < 1 { if day == 0 { day += 1 } else { day += 31 }; sub_mo += 1 }`. -/
def dateSubDayLoop : Nat → Int → Nat → Int × Nat
  | 0, day, sub_mo => (day, sub_mo)
  | fuel + 1, day, sub_mo =>
    if day < 1 then
      dateSubDayLoop fuel (if day = 0 then day + 1 else day + 31) (sub_mo + 1)
    else (day, sub_mo)

/-- Fuel-indexed form of the month loop of `impls.rs` `DateStr::sub`:
`while months < 1 { sub_year += 1; if months == 0 { months += 1 } else { months += 12 } }`. -/
def dateSubMonthLoop : Nat → Int → Nat → Int × Nat
  | 0, months, sub_year => (months, sub_year)
  | fuel + 1, months, sub_year =>
    if months < 1 then
      dateSubMonthLoop fuel (if months = 0 then months + 1 else months + 12) (sub_year + 1)
    else (months, sub_year)

/-- `impls.rs` `impl Sub for DateStr`: signed day difference normalized by
the day loop then cast `as u8`; `months = self.month + rhs.month + sub_mo`
(note: plus, not minus) normalized by the month loop; finally
`year = self.year - rhs.year - sub_year` in `u64`, whose underflow panics
(`none`).  Both loops strictly increase their counter each step, so
initial-distance-sized fuel reaches the exit condition. -/
def DateStr.sub (a b : DateStr) : Option DateStr :=
  let day0 : Int := (a.day : Int) - (b.day : Int)
  let p := dateSubDayLoop ((1 - day0).toNat + 1) day0 0
  let day := (p.1 % 256).toNat
  let months0 : Int := (a.month : Int) + (b.month : Int) + (p.2 : Int)
  let q := dateSubMonthLoop ((1 - months0).toNat + 1) months0 0
  let month := (q.1 % 256).toNat
  if b.year ≤ a.year then
    if q.2 ≤ a.year - b.year then some ⟨a.year - b.year - q.2, month, day⟩
    else none
  else none

/-- Modelled from the spec's words for the refinement claim about date
addition: "`Date + Date -> Date`: compute `(day, dayCarry) = day+day`;
`(month_partial, yearCarry) = month+month`;
`(month, monthCarry2) = month_partial + dayCarry`;
`year = year+year+yearCarry+monthCarry2`" — i.e. composed from the
scalar `Day`/`Month` operators of `lib.rs` (30- and 12-modulus). -/
def dateAddSpec (a b : DateStr) : DateStr :=
  let dp := Day.add a.day b.day
  let mp := Month.add a.month b.month
  let mq := Month.add mp.1 dp.2
  { year := a.year + b.year + mp.2 + mq.2, month := mq.1, day := dp.1 }

/-- Does a checked-parser result carry the `InvalidParsing` error? -/
def isInvalidParsing : Option (Except DateErrors DateStr) → Bool
  | some (.error (.InvalidParsing _)) => true
  | _ => false

/-! ### Helper lemmas about the loops -/

/-- When the start value is already at or below the modulus the carry loop
exits at once. -/
theorem carryLoopAux_le (m fuel sum : Nat) (h : sum ≤ m) :
    carryLoopAux m fuel sum = (sum, 0) := by
  cases fuel with
  | zero => rfl
  | succ f =>
    rw [carryLoopAux]
    simp [Nat.not_lt.mpr h]

/-- When the start value is already at or below the modulus the carry loop
returns it unchanged with carry `0`. -/
theorem carryLoop_le (m sum : Nat) (h : sum ≤ m) : carryLoop m sum = (sum, 0) :=
  carryLoopAux_le m sum sum h

/-- Closed form of the carry loop: repeated subtraction of `m` from a
positive start value is division with remainder shifted into `[1, m]`. -/
theorem carryLoopAux_closed (m : Nat) (hm : 1 ≤ m) :
    ∀ fuel sum, 1 ≤ sum → sum ≤ fuel →
      carryLoopAux m fuel sum = ((sum - 1) % m + 1, (sum - 1) / m) := by
  intro fuel
  induction fuel with
  | zero => intro sum h1 h2; exact absurd h1 (by omega)
  | succ f ih =>
    intro sum h1 h2
    rw [carryLoopAux]
    by_cases h : sum > m
    · rw [if_pos h, ih (sum - m) (by omega) (by omega)]
      have e1 : sum - 1 = sum - m - 1 + m := by omega
      rw [e1, Nat.add_mod_right, Nat.add_div_right _ hm]
    · rw [if_neg h]
      rw [Nat.mod_eq_of_lt (show sum - 1 < m by omega),
        Nat.div_eq_of_lt (show sum - 1 < m by omega)]
      simp only [Prod.mk.injEq, and_true]
      omega

/-- Closed form of the carry loop at its default fuel. -/
theorem carryLoop_closed (m sum : Nat) (hm : 1 ≤ m) (hs : 1 ≤ sum) :
    carryLoop m sum = ((sum - 1) % m + 1, (sum - 1) / m) :=
  carryLoopAux_closed m hm sum sum hs le_rfl

/-! ### Helper lemmas about decimal rendering and parsing -/

/-- The digit characters produced for values below ten parse back to the
same value. -/
theorem digitVal?_digitChar (d : Nat) (h : d < 10) :
    digitVal? (Nat.digitChar d) = some d := by
  interval_cases d <;> decide

/-- The digit characters produced for values below ten are ASCII digits. -/
theorem digitChar_isDigit (d : Nat) (h : d < 10) :
    '0' ≤ Nat.digitChar d ∧ Nat.digitChar d ≤ '9' := by
  interval_cases d <;> decide

/-- Every character of a rendered number is an ASCII digit. -/
theorem natCharsAux_digits (fuel : Nat) :
    ∀ n, ∀ c ∈ natCharsAux fuel n, '0' ≤ c ∧ c ≤ '9' := by
  induction fuel with
  | zero => intro n c hc; simp [natCharsAux] at hc
  | succ f ih =>
    intro n c hc
    rw [natCharsAux] at hc
    by_cases h0 : n = 0
    · simp [h0] at hc
    · rw [if_neg h0] at hc
      rcases List.mem_append.mp hc with h | h
      · exact ih _ c h
      · rcases List.mem_singleton.mp h with rfl
        exact digitChar_isDigit _ (Nat.mod_lt _ (by omega))

/-- Every character of a rendered number is an ASCII digit. -/
theorem natChars_digits (n : Nat) : ∀ c ∈ natChars n, '0' ≤ c ∧ c ≤ '9' := by
  intro c hc
  rw [natChars] at hc
  by_cases h0 : n = 0
  · rw [if_pos h0] at hc
    rcases List.mem_singleton.mp hc with rfl
    decide
  · rw [if_neg h0] at hc
    exact natCharsAux_digits n n c hc

/-- A rendered number is never the empty string. -/
theorem natChars_ne_nil (n : Nat) : natChars n ≠ [] := by
  rw [natChars]
  by_cases h0 : n = 0
  · simp [h0]
  · rw [if_neg h0]
    cases n with
    | zero => omega
    | succ k =>
      rw [natCharsAux, if_neg h0]
      simp

/-- Unfolding equation of the accumulator on the empty string. -/
theorem parseDigitsAux_nil (acc : Nat) : parseDigitsAux acc [] = some acc := rfl

/-- Stepping the accumulator over one digit character. -/
theorem parseDigitsAux_digit (acc : Nat) (c : Char) (d : Nat) (cs : List Char)
    (h : digitVal? c = some d) :
    parseDigitsAux acc (c :: cs) = parseDigitsAux (acc * 10 + d) cs := by
  rw [parseDigitsAux, h]

/-- Digit accumulation distributes over list append. -/
theorem parseDigitsAux_append (xs : List Char) :
    ∀ (ys : List Char) (acc : Nat),
      parseDigitsAux acc (xs ++ ys)
        = (parseDigitsAux acc xs).bind (fun v => parseDigitsAux v ys) := by
  induction xs with
  | nil => intro ys acc; simp [parseDigitsAux]
  | cons c cs ih =>
    intro ys acc
    rw [List.cons_append, parseDigitsAux, parseDigitsAux]
    cases hc : digitVal? c with
    | none => simp
    | some d => simpa using ih ys (acc * 10 + d)

/-- Accumulating over the rendered digits of `n` computes
`acc · 10^(digit count) + n`. -/
theorem parseDigitsAux_natCharsAux (fuel : Nat) :
    ∀ n, n ≤ fuel → ∀ acc,
      parseDigitsAux acc (natCharsAux fuel n)
        = some (acc * 10 ^ (natCharsAux fuel n).length + n) := by
  induction fuel with
  | zero =>
    intro n hn acc
    interval_cases n
    simp [natCharsAux, parseDigitsAux]
  | succ f ih =>
    intro n hn acc
    by_cases h0 : n = 0
    · subst h0; simp [natCharsAux, parseDigitsAux_nil]
    · rw [natCharsAux, if_neg h0, parseDigitsAux_append,
        ih (n / 10) (by omega) acc, Option.some_bind,
        parseDigitsAux_digit _ _ _ _ (digitVal?_digitChar _ (Nat.mod_lt _ (by omega))),
        parseDigitsAux_nil]
      have h2 : n / 10 * 10 + n % 10 = n := Nat.div_add_mod' n 10
      have h1 : (acc * 10 ^ (natCharsAux f (n / 10)).length + n / 10) * 10 + n % 10
          = acc * (10 ^ (natCharsAux f (n / 10)).length * 10)
            + (n / 10 * 10 + n % 10) := by ring
      rw [List.length_append, List.length_singleton, h1, h2, ← pow_succ]

/-- Accumulating over the rendered decimal text of `n` recovers `n`. -/
theorem parseDigitsAux_natChars (n : Nat) (acc : Nat) :
    parseDigitsAux acc (natChars n)
      = some (acc * 10 ^ (natChars n).length + n) := by
  rw [natChars]
  by_cases h0 : n = 0
  · subst h0
    rw [if_pos rfl,
      parseDigitsAux_digit _ _ _ _ (show digitVal? '0' = some 0 by decide),
      parseDigitsAux_nil]
    norm_num
  · rw [if_neg h0]
    exact parseDigitsAux_natCharsAux n n le_rfl acc

/-- Round trip: parsing the rendered decimal text of an in-range number
recovers it. -/
theorem parseUInt_natChars (maxVal n : Nat) (h : n ≤ maxVal) :
    parseUInt maxVal (natChars n) = some n := by
  rw [parseUInt]
  obtain ⟨c, rest, hc⟩ : ∃ c rest, natChars n = c :: rest := by
    cases hx : natChars n with
    | nil => exact absurd hx (natChars_ne_nil n)
    | cons c rest => exact ⟨c, rest, rfl⟩
  have hdig := natChars_digits n c (by rw [hc]; exact List.mem_cons_self c rest)
  have hplus : c ≠ '+' := by
    intro h'
    rw [h'] at hdig
    exact absurd hdig (by decide)
  have hbody : stripPlus (natChars n) = natChars n := by
    rw [hc, stripPlus, if_neg hplus]
  rw [hbody, if_neg (natChars_ne_nil n),
    show parseDigitsAux 0 (natChars n) = some n by
      simpa using parseDigitsAux_natChars n 0]
  simp [h]

/-! ### Helper lemmas about splitting -/

/-- Splitting never produces an empty field list. -/
theorem splitOnChar_ne_nil (sep : Char) (s : List Char) :
    splitOnChar sep s ≠ [] := by
  cases s with
  | nil => simp [splitOnChar]
  | cons c cs =>
    rw [splitOnChar]
    by_cases h : c = sep
    · simp [h]
    · rw [if_neg h]
      cases splitOnChar sep cs <;> simp

/-- A string without the separator splits into a single field. -/
theorem splitOnChar_no_sep (sep : Char) (s : List Char) (h : sep ∉ s) :
    splitOnChar sep s = [s] := by
  induction s with
  | nil => rfl
  | cons c cs ih =>
    have hcs : ¬c = sep := by
      intro he
      subst he
      exact h (List.mem_cons_self c cs)
    rw [splitOnChar, if_neg hcs, ih (fun hm => h (List.mem_cons_of_mem c hm))]

/-- Splitting peels off a separator-free prefix as its own field. -/
theorem splitOnChar_append (sep : Char) (a b : List Char) (h : sep ∉ a) :
    splitOnChar sep (a ++ sep :: b) = a :: splitOnChar sep b := by
  induction a with
  | nil => simp [splitOnChar]
  | cons c cs ih =>
    have hcs : ¬c = sep := by
      intro he
      subst he
      exact h (List.mem_cons_self c cs)
    rw [List.cons_append, splitOnChar, if_neg hcs,
      ih (fun hm => h (List.mem_cons_of_mem c hm))]

/-! ### Helper lemmas about validation and the formatter -/

/-- For months in `[1, 12]` the constraint check always reports the month
as in range, whatever the day. -/
theorem check_month_ok (m d : Nat) (h1 : 1 ≤ m) (h2 : m ≤ 12) :
    (check_date_constraints m d).1 = true := by
  interval_cases m <;>
    · unfold check_date_constraints
      norm_num
      split <;> rfl

/-- A fully passing constraint check bounds both components. -/
theorem bounds_of_check {m d : Nat}
    (h : check_date_constraints m d = (true, true)) :
    1 ≤ m ∧ m ≤ 12 ∧ 1 ≤ d ∧ d ≤ 31 := by
  unfold check_date_constraints MAX_DAY_FEBR at h
  split_ifs at h <;> first | (exact absurd h (by decide)) | omega

/-- The token-presence loop of the formatter validator in closed form. -/
theorem checkTokens_eq (pieces : List (List Char)) :
    ∀ opts : List (List Char),
      checkTokens pieces opts
        = (if ∀ opt ∈ opts, ∃ p ∈ pieces, upperStr p = opt
           then .ok () else .error .FormatDateError) := by
  intro opts
  induction opts with
  | nil => simp [checkTokens]
  | cons o rest ih =>
    rw [checkTokens, ih]
    by_cases h : pieces.any (fun e => upperStr e = o) = true
    · have h' : ∃ p ∈ pieces, upperStr p = o := by simpa using h
      simp [h, List.forall_mem_cons, h']
    · have h' : ¬∃ p ∈ pieces, upperStr p = o := by simpa using h
      simp [h, List.forall_mem_cons, h']

/-- The panicking parser on an input whose split has at least three
fields, written out field by field. -/
theorem from_iso_str_fields (A B C : List Char) (rest : List (List Char))
    (s : List Char) (h : splitOnChar '-' s = A :: B :: C :: rest) :
    DateStr.from_iso_str s =
      (if ¬(1 ≤ (parseUInt U8MAX B).getD 0 ∧ (parseUInt U8MAX B).getD 0 ≤ 12)
       then none
       else if ¬(1 ≤ (parseUInt U8MAX B).getD 0 ∧ (parseUInt U8MAX B).getD 0 ≤ 12)
       then none
       else if ¬(1 ≤ (parseUInt U8MAX C).getD 0 ∧ (parseUInt U8MAX C).getD 0 ≤ 31)
       then none
       else if ¬(check_date_constraints ((parseUInt U8MAX B).getD 0)
           ((parseUInt U8MAX C).getD 0)).1 then none
       else if ¬(check_date_constraints ((parseUInt U8MAX B).getD 0)
           ((parseUInt U8MAX C).getD 0)).2 then none
       else some ⟨(parseUInt U64MAX A).getD 0, (parseUInt U8MAX B).getD 0,
         (parseUInt U8MAX C).getD 0⟩) := by
  simp only [DateStr.from_iso_str, h]
  rfl

/-- The checked parser on an input whose split has at least three fields,
written out field by field. -/
theorem try_from_iso_str_fields (A B C : List Char) (rest : List (List Char))
    (s : List Char) (h : splitOnChar '-' s = A :: B :: C :: rest) :
    DateStr.try_from_iso_str s =
      (if ¬(1 ≤ (parseUInt U8MAX B).getD 0 ∧ (parseUInt U8MAX B).getD 0 ≤ 12)
       then some (.error (.InvalidMonth ((parseUInt U8MAX B).getD 0)))
       else if ¬(1 ≤ (parseUInt U8MAX C).getD 0 ∧ (parseUInt U8MAX C).getD 0 ≤ 31)
       then some (.error (.InvalidDay ((parseUInt U8MAX C).getD 0)))
       else some (.ok ⟨(parseUInt U64MAX A).getD 0, (parseUInt U8MAX B).getD 0,
         (parseUInt U8MAX C).getD 0⟩)) := by
  simp only [DateStr.try_from_iso_str, h]
  rfl

/-! ### Claim theorems -/

/-- C1: the spec's ceiling table says `Date::new` must reject day 30 in
month 2 with `InvalidDay{30}` and accept every day up to 31 in a 31-day
month; the code's check `month != 2 && day > 29` does the opposite on
both counts: it accepts `(2023, 2, 30)` and rejects `(2023, 1, 31)` with
`InvalidDay{31}` (and likewise rejects day 30 of a 31-day month). -/
theorem DateStr_new_inverted_february_check :
    DateStr.new 2023 2 30 = .ok ⟨2023, 2, 30⟩
      ∧ DateStr.new 2023 1 31 = .error (.InvalidDay 31)
      ∧ DateStr.new 2023 1 30 = .error (.InvalidDay 30) := by
  decide

/-- C5 counterexample: on the valid dates `0001-01-15` and `0001-01-16`
the `DateStr` addition of the code differs from the claim's composition
of the scalar `Day`/`Month` operators: the code keeps day `31` (its
threshold is 31) while the claimed formula carries at 30. -/
theorem dateAdd_ne_composed_scalar_adds :
    DateStr.add ⟨1, 1, 15⟩ ⟨1, 1, 16⟩ = ⟨2, 2, 31⟩
      ∧ dateAddSpec ⟨1, 1, 15⟩ ⟨1, 1, 16⟩ = ⟨2, 3, 1⟩
      ∧ (⟨2, 2, 31⟩ : DateStr) ≠ ⟨2, 3, 1⟩ := by
  decide

/-- C5 (amended): for valid dates, `Date + Date` reduces the day sum with
threshold 31 (not the Day-operator's 30), folds the day carry into a
single 12-modulus month reduction, and adds the year carry; the result is
assembled unchecked and is not re-validated against the ceiling table —
witness the second conjunct, where adding two valid dates yields day 31
in month 2, which `check_date_constraints` rejects. -/
theorem dateAdd_closed_form (a b : DateStr)
    (h1 : 1 ≤ a.month) (h2 : a.month ≤ 12) (h3 : 1 ≤ a.day) (h4 : a.day ≤ 31)
    (h5 : 1 ≤ b.month) (h6 : b.month ≤ 12) (h7 : 1 ≤ b.day) (h8 : b.day ≤ 31) :
    DateStr.add a b =
      { year := a.year + b.year
          + (a.month + b.month + (if a.day + b.day ≤ 31 then 0 else 1) - 1) / 12,
        month := (a.month + b.month + (if a.day + b.day ≤ 31 then 0 else 1) - 1) % 12 + 1,
        day := if a.day + b.day ≤ 31 then a.day + b.day else a.day + b.day - 31 }
    ∧ (check_date_constraints (DateStr.add ⟨1, 2, 15⟩ ⟨1, 12, 16⟩).month
        (DateStr.add ⟨1, 2, 15⟩ ⟨1, 12, 16⟩).day).2 = false := by
  refine ⟨?_, by decide⟩
  simp only [DateStr.add]
  rw [carryLoop_closed 31 (a.day + b.day) (by omega) (by omega)]
  dsimp only
  rw [carryLoop_closed 12 (a.month + b.month + (a.day + b.day - 1) / 31)
    (by omega) (by omega)]
  dsimp only
  simp only [DateStr.mk.injEq]
  refine ⟨?_, ?_, ?_⟩ <;> split_ifs <;> omega

theorem dateAdd_closed_form_witness :
    DateStr.add ⟨1, 1, 15⟩ ⟨1, 1, 16⟩ = ⟨2, 2, 31⟩ := by
  have h := (dateAdd_closed_form ⟨1, 1, 15⟩ ⟨1, 1, 16⟩ (by decide) (by decide)
    (by decide) (by decide) (by decide) (by decide) (by decide) (by decide)).1
  exact h.trans (by decide)

/-- C6 counterexample: the claim says the `Day` component returned by
`Day - Day` is always in `[1, 30]` (adding 30 until positive); but
`Day(4) - Day(4)` returns `(Day(0), borrow 0)`, and 0 is outside
`[1, 30]`. -/
theorem daySub_leaves_valid_range :
    Day.sub 4 4 = (0, 0)
      ∧ ¬(1 ≤ (Day.sub 4 4).1 ∧ (Day.sub 4 4).1 ≤ 30) := by
  decide

/-- C6 (amended): for day values in `[1, 31]`, `Day - Day` returns the
positive difference with borrow 0 when `a > b`; otherwise the loop body
never runs (its condition `-sub > 30` is unreachable from `[1, 31]`
inputs) and the non-positive `i16` difference is cast to `u8` with
two's-complement wraparound: `a = b` gives `Day(0)` and `a < b` gives
`Day(256 + a - b)`, in both cases with borrow 0 — so the returned day is
not normalized into `[1, 30]`. -/
theorem daySub_closed_form (a b : Nat)
    (ha1 : 1 ≤ a) (ha2 : a ≤ 31) (hb1 : 1 ≤ b) (hb2 : b ≤ 31) :
    Day.sub a b =
      if b < a then (a - b, 0)
      else if a = b then (0, 0)
      else (256 + a - b, 0) := by
  simp only [Day.sub]
  by_cases h : ((a : Int) - (b : Int)) > 0
  · rw [if_pos h, if_pos (show b < a by omega)]
    simp only [Prod.mk.injEq, and_true]
    omega
  · rw [if_neg h, if_neg (show ¬b < a by omega), daySubLoopAux,
      if_neg (show ¬((a : Int) - (b : Int)) * (-1) > 30 by omega)]
    by_cases hab : a = b
    · rw [if_pos hab]
      subst hab
      simp only [Prod.mk.injEq, and_true]
      omega
    · rw [if_neg hab]
      simp only [Prod.mk.injEq, and_true]
      omega

theorem daySub_closed_form_witness : Day.sub 5 10 = (251, 0) := by
  have h := daySub_closed_form 5 10 (by decide) (by decide) (by decide) (by decide)
  exact h.trans (by decide)

/-- C7: subtracting the parsed date `2023-01-04` from itself yields the
date parsed from `0-3-1` (year 0, month 3, day 1) and not the zero date,
under the code's carry/borrow policy. -/
theorem dateSub_self_quirk :
    DateStr.from_iso_str ("2023-01-04".toList) = some ⟨2023, 1, 4⟩
      ∧ DateStr.sub ⟨2023, 1, 4⟩ ⟨2023, 1, 4⟩ = some ⟨0, 3, 1⟩
      ∧ DateStr.from_iso_str ("0-3-1".toList) = some ⟨0, 3, 1⟩
      ∧ (⟨0, 3, 1⟩ : DateStr) ≠ ⟨0, 0, 0⟩ := by
  decide

/-- C8: `Day + Day` sums the two magnitudes and repeatedly subtracts 30
while the sum exceeds 30, incrementing the month carry — in closed form,
for day values in `[1, 31]` the result is the sum shifted into `[1, 30]`
by the 30-modulus with the quotient as carry (so `Day(25) + Day(10)`
yields `(Day(5), carry 1)`, as the witness instantiates). -/
theorem dayAdd_modulus_30 (a b : Nat)
    (ha1 : 1 ≤ a) (ha2 : a ≤ 31) (hb1 : 1 ≤ b) (hb2 : b ≤ 31) :
    Day.add a b = ((a + b - 1) % 30 + 1, (a + b - 1) / 30) := by
  rw [Day.add]
  exact carryLoop_closed 30 (a + b) (by omega) (by omega)

theorem dayAdd_modulus_30_witness : Day.add 25 10 = (5, 1) := by
  have h := dayAdd_modulus_30 25 10 (by decide) (by decide) (by decide) (by decide)
  exact h.trans (by decide)

/-- C9: `DateFormat::from_string` succeeds, storing the uppercased
template, exactly when each of `YYYY`, `MM`, `DD` appears
case-insensitively among the pieces of the template split on the
separator (default `'-'`), and fails with the single `FormatDateError`
otherwise; in particular template `2020_10_20` with separator `/`
fails. -/
theorem from_string_token_presence :
    (∀ (t : List Char) (sep : Option Char),
      DateFormat.from_string t sep
        = (if ∀ opt ∈ FORMATTER_OPTIONS,
              ∃ p ∈ splitOnChar (sep.getD '-') t, upperStr p = opt
           then .ok ⟨upperStr t⟩ else .error .FormatDateError))
    ∧ DateFormat.from_string ("2020_10_20".toList) (some '/')
        = .error .FormatDateError := by
  constructor
  · intro t sep
    simp only [DateFormat.from_string]
    rw [checkTokens_eq]
    by_cases h : ∀ opt ∈ FORMATTER_OPTIONS,
        ∃ p ∈ splitOnChar (sep.getD '-') t, upperStr p = opt
    · rw [if_pos h, if_pos h]
    · rw [if_neg h, if_neg h]
  · decide

/-- C10: when day addition carries nothing (sum at most 30) — and likewise
day subtraction with a positive difference — the carry component is the
raw value 0, produced by `Month::new_unchecked`, a value that
`Month::new` itself rejects as `InvalidMonth{0}`: the month range
invariant is not maintained by the outputs of `Day` arithmetic. -/
theorem day_arith_carry_zero_invalid_month (a b : Nat) (h : a + b ≤ 30) :
    (Day.add a b).2 = 0 ∧ (b < a → (Day.sub a b).2 = 0)
      ∧ Month.new 0 = .error (.InvalidMonth 0) := by
  refine ⟨?_, ?_, by decide⟩
  · rw [Day.add, carryLoop_le 30 (a + b) h]
  · intro hba
    simp only [Day.sub]
    rw [if_pos (show ((a : Int) - (b : Int)) > 0 by omega)]

theorem day_arith_carry_zero_invalid_month_witness :
    (Day.add 10 5).2 = 0 ∧ (Day.sub 10 5).2 = 0
      ∧ Month.new 0 = .error (.InvalidMonth 0) := by
  have h := day_arith_carry_zero_invalid_month 10 5 (by decide)
  exact ⟨h.1, h.2.1 (by decide), h.2.2⟩

/-- C2 counterexample: the two parser flavors do not accept the same
inputs: on `2023-02-30` the checked parser returns a date while the
panicking parser aborts (February is capped at 29 only by the panicking
parser's `check_date_constraints` step, which the checked parser never
runs). -/
theorem parsers_disagree_on_feb30 :
    DateStr.try_from_iso_str ("2023-02-30".toList) = some (.ok ⟨2023, 2, 30⟩)
      ∧ DateStr.from_iso_str ("2023-02-30".toList) = none := by
  decide

/-- C2 (amended): the panicking parser aborts whenever the checked parser
fails (index panic or returned error), and refines it by one extra check:
on inputs the checked parser accepts, the panicking parser returns the
same date exactly when the day passes the per-month ceiling check, and
aborts otherwise. -/
theorem from_iso_str_vs_try_from_iso_str (s : List Char) :
    match DateStr.try_from_iso_str s with
    | none => DateStr.from_iso_str s = none
    | some (.error _) => DateStr.from_iso_str s = none
    | some (.ok d) =>
        DateStr.from_iso_str s =
          (if (check_date_constraints d.month d.day).2 = true
           then some d else none) := by
  rcases hL : splitOnChar '-' s with _ | ⟨A, _ | ⟨B, _ | ⟨C, rest⟩⟩⟩
  · have g0 : ([] : List (List Char)).get? 0 = none := rfl
    simp only [DateStr.try_from_iso_str, DateStr.from_iso_str, hL, g0]
  · have g0 : ([A] : List (List Char)).get? 0 = some A := rfl
    have g1 : ([A] : List (List Char)).get? 1 = none := rfl
    simp only [DateStr.try_from_iso_str, DateStr.from_iso_str, hL, g0, g1]
  · have g0 : ([A, B] : List (List Char)).get? 0 = some A := rfl
    have g1 : ([A, B] : List (List Char)).get? 1 = some B := rfl
    have g2 : ([A, B] : List (List Char)).get? 2 = none := rfl
    simp only [DateStr.try_from_iso_str, DateStr.from_iso_str, hL, g0, g1, g2]
    by_cases hm : 1 ≤ (parseUInt U8MAX B).getD 0 ∧ (parseUInt U8MAX B).getD 0 ≤ 12
    · simp [hm]
    · simp [hm]
  · rw [try_from_iso_str_fields A B C rest s hL]
    by_cases hm : 1 ≤ (parseUInt U8MAX B).getD 0 ∧ (parseUInt U8MAX B).getD 0 ≤ 12
    · by_cases hd : 1 ≤ (parseUInt U8MAX C).getD 0 ∧ (parseUInt U8MAX C).getD 0 ≤ 31
      · rw [if_neg (not_not_intro hm), if_neg (not_not_intro hd)]
        dsimp only
        rw [from_iso_str_fields A B C rest s hL, if_neg (not_not_intro hm),
          if_neg (not_not_intro hm), if_neg (not_not_intro hd)]
        have hmo : (check_date_constraints ((parseUInt U8MAX B).getD 0)
            ((parseUInt U8MAX C).getD 0)).1 = true :=
          check_month_ok _ _ hm.1 hm.2
        rw [if_neg (by simp [hmo])]
        by_cases hok : (check_date_constraints ((parseUInt U8MAX B).getD 0)
            ((parseUInt U8MAX C).getD 0)).2 = true
        · rw [if_neg (by simp [hok]), if_pos hok]
        · rw [if_pos (by simpa using hok), if_neg hok]
      · rw [if_neg (not_not_intro hm), if_pos hd]
        dsimp only
        rw [from_iso_str_fields A B C rest s hL, if_neg (not_not_intro hm),
          if_neg (not_not_intro hm), if_pos hd]
    · rw [if_pos hm]
      dsimp only
      rw [from_iso_str_fields A B C rest s hL, if_pos hm]

/-- C3 counterexample: the canonical rendering is not zero-padded: the
component `Display` impls delegate through a nested `write!` that drops
the outer `{:02}` flags, so `(2022, 1, 4)` renders as `2022-1-4`, not as
the claimed `2022-01-04`. -/
theorem display_not_zero_padded :
    DateStr.toISOString ⟨2022, 1, 4⟩ = "2022-1-4".toList
      ∧ DateStr.toISOString ⟨2022, 1, 4⟩ ≠ "2022-01-04".toList := by
  decide

/-- C3 (amended): parsing the canonical rendering of a valid date (`u64`
year, month/day passing the per-month ceiling check) returns the same
date — where the rendering is `YEAR-MONTH-DAY` with every component
unpadded (the component `Display` impls discard the `{:02}` flags), not
the claimed two-digit zero-padded form. -/
theorem parse_toString_roundtrip (d : DateStr) (hy : d.year ≤ U64MAX)
    (hc : check_date_constraints d.month d.day = (true, true)) :
    DateStr.from_iso_str (DateStr.toISOString d) = some d := by
  obtain ⟨hm1, hm2, hd1, hd2⟩ := bounds_of_check hc
  have hny : '-' ∉ natChars d.year := fun hmem =>
    absurd (natChars_digits d.year '-' hmem) (by decide)
  have hnm : '-' ∉ natChars d.month := fun hmem =>
    absurd (natChars_digits d.month '-' hmem) (by decide)
  have hnd : '-' ∉ natChars d.day := fun hmem =>
    absurd (natChars_digits d.day '-' hmem) (by decide)
  have hsplit : splitOnChar '-' (DateStr.toISOString d)
      = [natChars d.year, natChars d.month, natChars d.day] := by
    rw [DateStr.toISOString, splitOnChar_append '-' _ _ hny,
      splitOnChar_append '-' _ _ hnm, splitOnChar_no_sep '-' _ hnd]
  rw [from_iso_str_fields _ _ _ _ _ hsplit,
    parseUInt_natChars U64MAX d.year hy,
    parseUInt_natChars U8MAX d.month (by simp only [U8MAX]; omega),
    parseUInt_natChars U8MAX d.day (by simp only [U8MAX]; omega)]
  simp only [Option.getD_some, hc]
  simp [hm1, hm2, hd1, hd2]

theorem parse_toString_roundtrip_witness :
    DateStr.from_iso_str (DateStr.toISOString ⟨2023, 1, 4⟩)
      = some ⟨2023, 1, 4⟩ :=
  parse_toString_roundtrip ⟨2023, 1, 4⟩ (by decide) (by decide)

/-- C4 counterexample: on `2023--11-02` (empty month field from the
doubled separator) the checked parser does not return `InvalidParsing`
with the offending substring — it returns `InvalidMonth{0}`, because the
unparsable text was silently defaulted to 0. -/
theorem double_sep_not_invalidParsing :
    DateStr.try_from_iso_str ("2023--11-02".toList)
        = some (.error (.InvalidMonth 0))
      ∧ isInvalidParsing (DateStr.try_from_iso_str ("2023--11-02".toList))
        = false := by
  decide

/-- C4 (amended): numeric text that fails to parse is defaulted to 0, not
reported as `InvalidParsing`: with at least three fields, an unparsable
month field yields `InvalidMonth{0}`, and an unparsable day field (with a
valid month) yields `InvalidDay{0}`. -/
theorem try_parse_unparsable_field_defaults_zero (s m_s d_s : List Char)
    (h1 : (splitOnChar '-' s).get? 1 = some m_s)
    (h2 : (splitOnChar '-' s).get? 2 = some d_s) :
    (parseUInt U8MAX m_s = none →
      DateStr.try_from_iso_str s = some (.error (.InvalidMonth 0)))
    ∧ (∀ mv, parseUInt U8MAX m_s = some mv → 1 ≤ mv → mv ≤ 12 →
        parseUInt U8MAX d_s = none →
        DateStr.try_from_iso_str s = some (.error (.InvalidDay 0))) := by
  rcases hL : splitOnChar '-' s with _ | ⟨A, _ | ⟨B, _ | ⟨C, rest⟩⟩⟩
  · rw [hL] at h1
    exact Option.noConfusion h1
  · rw [hL] at h1
    exact Option.noConfusion h1
  · rw [hL] at h2
    exact Option.noConfusion h2
  · rw [hL] at h1 h2
    have hB : B = m_s := Option.some.inj h1
    have hC : C = d_s := Option.some.inj h2
    subst hB
    subst hC
    constructor
    · intro hm
      rw [try_from_iso_str_fields _ _ _ _ _ hL, hm]
      simp
    · intro mv hmv h1' h2' hd
      rw [try_from_iso_str_fields _ _ _ _ _ hL, hmv, hd]
      simp [h1', h2']

theorem try_parse_unparsable_field_defaults_zero_witness :
    DateStr.try_from_iso_str ("2023--11-02".toList)
      = some (.error (.InvalidMonth 0)) := by
  have h := try_parse_unparsable_field_defaults_zero ("2023--11-02".toList)
    [] ("11".toList) (by decide) (by decide)
  exact h.1 (by decide)

end DatesStr
